import Mathlib

/-!
Verification development for the trajectory-generation module
`ese200/trajectories.py`: a 2D constant-acceleration point-mass model,
a convex trajectory-fitting problem, a batch generator, and a simulator.

Numbers are modelled by `ℚ` (exact real arithmetic), numpy arrays by
functions out of `ℕ`/`Fin n`, and the random source by an explicit
stream of standard draws together with a stream position.
-/

namespace ESE200

/-- Modelled from the spec: the `Config` class of `ese200/config.py` is not
among the sources; §3 of the spec lists its scalar fields
(time_step, duration, trajectory_noise, state_noise, trajectory_radius,
trajectory_margin, n_trajectories), read-only for the whole run. -/
structure Config where
  time_step : ℚ
  duration : ℚ
  trajectory_noise : ℚ
  state_noise : ℚ
  trajectory_radius : ℚ
  trajectory_margin : ℚ
  n_trajectories : ℕ

/-- `get_dynamics(dt)` from trajectories.py: the discrete-time matrices
`A : 4×4` and `B : 4×2` of the constant-acceleration 2D point mass,
with state `[x, y, vx, vy]` and input `[ax, ay]`. -/
def get_dynamics (dt : ℚ) : Matrix (Fin 4) (Fin 4) ℚ × Matrix (Fin 4) (Fin 2) ℚ :=
  (Matrix.of ![![1, 0, dt, 0],
               ![0, 1, 0, dt],
               ![0, 0, 1, 0],
               ![0, 0, 0, 1]],
   Matrix.of ![![(1/2) * dt^2, 0],
               ![0, (1/2) * dt^2],
               ![dt, 0],
               ![0, dt]])

/-- The `Simulator` class: a configuration, the dynamics pair obtained from
`get_dynamics(config.time_step)`, and a random source modelled as a stream of
standard-normal draws (`rngStream d n i` is entry `(n, i)` of draw number `d`)
plus the current stream position. -/
structure Simulator where
  config : Config
  A : Matrix (Fin 4) (Fin 4) ℚ
  B : Matrix (Fin 4) (Fin 2) ℚ
  rngStream : ℕ → ℕ → Fin 4 → ℚ
  rngPos : ℕ

/-- `Simulator.__init__`: store the config, build the dynamics pair from the
config's time step, and take a fresh random source at position 0. -/
def Simulator.init (config : Config) (stream : ℕ → ℕ → Fin 4 → ℚ) : Simulator :=
  ⟨config, (get_dynamics config.time_step).1, (get_dynamics config.time_step).2, stream, 0⟩

/-- `Simulator.step(x, u)`: returns `x @ A.T + u @ B.T + noise` where
`noise = rng.normal(scale=trajectory_noise * time_step, size=x.shape)`.
A draw `rng.normal(scale=s, size)` is modelled as `s` times the next
standard draw of the stream; the step advances the stream position. -/
def Simulator.step (sim : Simulator) (x : ℕ → Fin 4 → ℚ) (u : ℕ → Fin 2 → ℚ) :
    (ℕ → Fin 4 → ℚ) × Simulator :=
  (fun n i =>
      (∑ j, x n j * sim.A i j) + (∑ j, u n j * sim.B i j) +
        sim.config.trajectory_noise * sim.config.time_step * sim.rngStream sim.rngPos n i,
   ⟨sim.config, sim.A, sim.B, sim.rngStream, sim.rngPos + 1⟩)

/-- Entry `i` of `np.linspace(0, T-1, P+1).astype(int)`: the exact value is
`i·(T−1)/P`, and `astype(int)` truncates, which on nonnegative values is the
floor, i.e. natural division. -/
def pointIdxRaw (T P i : ℕ) : ℕ := i * (T - 1) / P

/-- The waypoint index array of `optimize` after the explicit assignment
`point_idx[0] = 0` (trajectories.py line 89). -/
def pointIdx (T P i : ℕ) : ℕ := if i = 0 then 0 else pointIdxRaw T P i

/-- The constraint set of the convex program built in `optimize`
(trajectories.py lines 93–100), for a grid of length `T` and `P` waypoints:
dynamics consistency `x[1:] == x[:-1] @ A.T + u[:-1] @ B.T`, waypoint
interpolation `x[point_idx, :2] == points`, and loop closure `x[-1] == x[0]`. -/
def Feasible (A : Matrix (Fin 4) (Fin 4) ℚ) (B : Matrix (Fin 4) (Fin 2) ℚ)
    (T P : ℕ) (points : ℕ → Fin 2 → ℚ)
    (x : ℕ → Fin 4 → ℚ) (u : ℕ → Fin 2 → ℚ) : Prop :=
  (∀ k, k + 1 < T → ∀ i, x (k + 1) i = (∑ j, x k j * A i j) + (∑ j, u k j * B i j)) ∧
  (∀ p, p < P → ∀ j : Fin 2, x (pointIdx T P p) (Fin.castLE (by decide) j) = points p j) ∧
  (∀ i, x (T - 1) i = x 0 i)

/-- The objective of `optimize`: `cp.sum_squares(u)` over the whole `T × 2`
input sequence. -/
def objective (T : ℕ) (u : ℕ → Fin 2 → ℚ) : ℚ :=
  ∑ k ∈ Finset.range T, ∑ j, (u k j) ^ 2

/-- A solver outcome: an optimal point of the program built in `optimize`,
i.e. a feasible pair minimising the objective among all feasible pairs. -/
def IsOptimal (A : Matrix (Fin 4) (Fin 4) ℚ) (B : Matrix (Fin 4) (Fin 2) ℚ)
    (T P : ℕ) (points : ℕ → Fin 2 → ℚ)
    (x : ℕ → Fin 4 → ℚ) (u : ℕ → Fin 2 → ℚ) : Prop :=
  Feasible A B T P points x u ∧
  ∀ x' u', Feasible A B T P points x' u' → objective T u ≤ objective T u'

/-- A candidate solution returned by the solver: a state sequence and an
input sequence. -/
def Sol : Type := (ℕ → Fin 4 → ℚ) × (ℕ → Fin 2 → ℚ)

/-- The external convex solver (`cvxpy`), per spec §6 an opaque black box
that takes a constraint predicate and an objective and either returns
optimal values or fails. -/
def SolverT : Type :=
  ((Sol → Prop) → (Sol → ℚ) → Option Sol)

/-- The solver contract of spec §6: whenever the solver returns a value, that
value satisfies the constraints it was given and minimises the objective it
was given; when the problem is infeasible or the solve fails, the variables'
`.value` fields stay `None`, modelled by `none`. -/
def SolverSound (solve : SolverT) : Prop :=
  ∀ C f r, solve C f = some r → C r ∧ ∀ r', C r' → f r ≤ f r'

/-- `optimize(A, B, t, points)` (with `T = len(t)`, `P = len(points)`):
build the constraint set and the sum-of-squared-accelerations objective,
hand them to the solver, and return the variables' values — `none` when the
solver produced no solution. -/
def optimize (solve : SolverT) (A : Matrix (Fin 4) (Fin 4) ℚ)
    (B : Matrix (Fin 4) (Fin 2) ℚ) (T P : ℕ) (points : ℕ → Fin 2 → ℚ) : Option Sol :=
  solve (fun r => Feasible A B T P points r.1 r.2) (fun r => objective T r.2)

/-- Length of `np.arange(0, stop, step)`: `max(ceil(stop/step), 0)` entries
for a positive step. -/
def arangeLen (stop step : ℚ) : ℕ :=
  if 0 < step then (⌈stop / step⌉).toNat else 0

/-- The fixed 9-point loop template of `generate_expert_trajectories`
(trajectories.py lines 47–62), before scaling by the trajectory radius. -/
def template : ℕ → Fin 2 → ℚ
  | 0 => ![-1, 0]
  | 1 => ![-1, 2]
  | 2 => ![0, 3]
  | 3 => ![1, 2]
  | 4 => ![1, 1]
  | 5 => ![2, 1]
  | 6 => ![3, 0]
  | 7 => ![2, -1]
  | 8 => ![0, -1]
  | _ => ![0, 0]

/-- Run `f` on every index of a list, collecting the results; the whole run
fails if any single call fails (in the script, assigning a failed solve's
`None` result into the batch array raises, aborting the batch). -/
def mapOption {α : Type} (f : ℕ → Option α) : List ℕ → Option (List α)
  | [] => some []
  | i :: rest =>
    match f i, mapOption f rest with
    | some a, some as => some (a :: as)
    | _, _ => none

/-- The all-zero candidate solution. -/
def zeroSol : Sol := (fun _ _ => 0, fun _ _ => 0)

/-- `generate_expert_trajectories()`: build the dynamics pair once, a time
grid of length `T = len(arange(0, duration, time_step))`, `n_trajectories`
perturbed copies of the scaled template (waypoint perturbation =
`trajectory_noise` times a standard draw `wpNoise`), fit each with
`optimize`, then add measurement noise of scale `state_noise * time_step`
(standard draws `stNoise`) to every state entry. Returns the states batch,
the inputs batch and the waypoint sets. -/
def generate_expert_trajectories (solve : SolverT) (cfg : Config)
    (wpNoise : ℕ → ℕ → Fin 2 → ℚ) (stNoise : ℕ → ℕ → Fin 4 → ℚ) :
    Option (List (List (Fin 4 → ℚ)) × List (List (Fin 2 → ℚ)) × (ℕ → ℕ → Fin 2 → ℚ)) :=
  match mapOption
      (fun i => optimize solve (get_dynamics cfg.time_step).1 (get_dynamics cfg.time_step).2
        (arangeLen cfg.duration cfg.time_step) 9
        (fun p j => template p j * cfg.trajectory_radius + cfg.trajectory_noise * wpNoise i p j))
      (List.range cfg.n_trajectories) with
  | none => none
  | some sols =>
    some
      ((List.range cfg.n_trajectories).map fun i =>
          (List.range (arangeLen cfg.duration cfg.time_step)).map fun k => fun c =>
            (sols.getD i zeroSol).1 k c + cfg.state_noise * cfg.time_step * stNoise i k c,
       (List.range cfg.n_trajectories).map fun i =>
          (List.range (arangeLen cfg.duration cfg.time_step)).map fun k =>
            (sols.getD i zeroSol).2 k,
       fun i p j => template p j * cfg.trajectory_radius + cfg.trajectory_noise * wpNoise i p j)

/-- A noise-free configuration with unit time step, used to instantiate the
theorems below at concrete inputs. -/
def cfg0 : Config := ⟨1, 1, 0, 0, 1, 0, 1⟩

/-- A simulator built from `cfg0` and an all-zero random stream. -/
def sim0 : Simulator := Simulator.init cfg0 (fun _ _ _ => 0)

/-- The all-zero state sequence. -/
def xZero : ℕ → Fin 4 → ℚ := fun _ _ => 0

/-- The all-zero input sequence. -/
def uZero : ℕ → Fin 2 → ℚ := fun _ _ => 0

/-- The all-zero waypoint list. -/
def pZero : ℕ → Fin 2 → ℚ := fun _ _ => 0

/-- Two distinct waypoints: `(0,0)` and `(1,1)`. -/
def pointsTwo : ℕ → Fin 2 → ℚ := fun p _ => if p = 0 then 0 else 1

/-- A solver that always fails; it trivially satisfies the solver contract. -/
def noneSolve : SolverT := fun _ _ => none

/-- C1: applying the `get_dynamics(dt)` matrices to a state `[px, py, vx, vy]`
and an input `[ax, ay]` performs exact constant-acceleration kinematic
integration over one step. -/
theorem get_dynamics_kinematics (dt px py vx vy ax ay : ℚ) :
    (get_dynamics dt).1.mulVec ![px, py, vx, vy] + (get_dynamics dt).2.mulVec ![ax, ay] =
      ![px + vx * dt + (1/2) * ax * dt^2,
        py + vy * dt + (1/2) * ay * dt^2,
        vx + ax * dt,
        vy + ay * dt] := by
  funext i
  fin_cases i <;>
    simp [get_dynamics, Matrix.mulVec, Matrix.dotProduct, Fin.sum_univ_four,
      Fin.sum_univ_two] <;>
    ring

/-- C7: `get_dynamics` is a total pure function of `dt`, and at the
degenerate time step `dt = 0` it returns the 4×4 identity for `A` and the
4×2 zero matrix for `B`. -/
theorem get_dynamics_zero_identity :
    (get_dynamics 0).1 = (1 : Matrix (Fin 4) (Fin 4) ℚ) ∧
    (get_dynamics 0).2 = (0 : Matrix (Fin 4) (Fin 2) ℚ) := by
  constructor <;> funext i j <;> fin_cases i <;> fin_cases j <;>
    simp [get_dynamics, Matrix.one_apply, Matrix.vecHead, Matrix.vecTail]

/-- C3: for a grid of length `T ≥ 2` and `P ≥ 1` waypoints, the waypoint
indices of `optimize` start at 0, equal the floors `⌊i·(T−1)/P⌋` of the
evenly spaced grid `linspace(0, T−1, P+1)` (its last entry dropped), are
monotone, and every index used is strictly below the loop-closure index
`T − 1`. -/
theorem pointIdx_spec (T P : ℕ) (hT : 2 ≤ T) (hP : 1 ≤ P) :
    pointIdx T P 0 = 0 ∧
    (∀ i, pointIdx T P i = i * (T - 1) / P) ∧
    (∀ i j, i ≤ j → pointIdx T P i ≤ pointIdx T P j) ∧
    (∀ i, i < P → pointIdx T P i < T - 1) := by
  have hclosed : ∀ i, pointIdx T P i = i * (T - 1) / P := by
    intro i
    cases i with
    | zero => simp [pointIdx]
    | succ n => simp [pointIdx, pointIdxRaw]
  refine ⟨rfl, hclosed, ?_, ?_⟩
  · intro i j hij
    rw [hclosed i, hclosed j]
    exact Nat.div_le_div_right (Nat.mul_le_mul_right _ hij)
  · intro i hi
    rw [hclosed i, Nat.div_lt_iff_lt_mul (by omega : 0 < P)]
    calc i * (T - 1) < P * (T - 1) :=
          mul_lt_mul_of_pos_right hi (by omega : 0 < T - 1)
      _ = (T - 1) * P := mul_comm _ _

/-- Witness for C3 at `T = 5`, `P = 3`. -/
theorem pointIdx_spec_witness : pointIdx 5 3 2 < 5 - 1 :=
  (pointIdx_spec 5 3 (by decide) (by decide)).2.2.2 2 (by decide)

/-- C10: the explicit assignment `point_idx[0] = 0` is redundant: the index
array equals the one computed without the forced assignment, because entry 0
of `linspace(0, T−1, P+1).astype(int)` is already 0. -/
theorem pointIdx_forced_zero_redundant (T P : ℕ) (hT : 1 ≤ T) (hP : 1 ≤ P) :
    ∀ i, pointIdx T P i = pointIdxRaw T P i := by
  intro i
  cases i with
  | zero => simp [pointIdx, pointIdxRaw]
  | succ n => simp [pointIdx]

/-- Witness for C10 at `T = 4`, `P = 2`, entry 0. -/
theorem pointIdx_forced_zero_redundant_witness :
    pointIdx 4 2 0 = pointIdxRaw 4 2 0 :=
  pointIdx_forced_zero_redundant 4 2 (by decide) (by decide) 0

/-- C2: any optimal point of the program built by `optimize` — in particular
the sequences returned on a successful solve — satisfies loop closure: the
last state equals the first state in all four components. -/
theorem optimize_loop_closure (A : Matrix (Fin 4) (Fin 4) ℚ) (B : Matrix (Fin 4) (Fin 2) ℚ)
    (T P : ℕ) (points : ℕ → Fin 2 → ℚ) (x : ℕ → Fin 4 → ℚ) (u : ℕ → Fin 2 → ℚ)
    (h : IsOptimal A B T P points x u) : ∀ i, x (T - 1) i = x 0 i :=
  h.1.2.2

/-- Witness for C2: the zero trajectory is optimal for `T = 1`, `P = 0`. -/
theorem optimize_loop_closure_witness : xZero (1 - 1) 0 = xZero 0 0 :=
  optimize_loop_closure (get_dynamics 1).1 (get_dynamics 1).2 1 0 pZero xZero uZero
    ⟨⟨fun _ hk => absurd hk (by omega), fun p hp => absurd hp (Nat.not_lt_zero p),
      fun _ => rfl⟩,
     fun x' u' _ => by
       have h0 : objective 1 uZero = 0 := by simp [objective, uZero]
       rw [h0]
       exact Finset.sum_nonneg fun k _ => Finset.sum_nonneg fun j _ => sq_nonneg _⟩ 0

/-- C4: `Simulator.step` returns `x·Aᵀ + u·Bᵀ + noise`, the noise being the
fresh draw at the current stream position scaled by
`trajectory_noise * time_step`; with noise scale 0 the step is exactly
`x·Aᵀ + u·Bᵀ`. -/
theorem step_formula (sim : Simulator) (x : ℕ → Fin 4 → ℚ) (u : ℕ → Fin 2 → ℚ) :
    (∀ n i, (sim.step x u).1 n i =
        (∑ j, x n j * sim.A i j) + (∑ j, u n j * sim.B i j) +
          sim.config.trajectory_noise * sim.config.time_step * sim.rngStream sim.rngPos n i) ∧
    (sim.config.trajectory_noise = 0 →
      ∀ n i, (sim.step x u).1 n i =
        (∑ j, x n j * sim.A i j) + (∑ j, u n j * sim.B i j)) := by
  refine ⟨fun n i => rfl, fun h n i => ?_⟩
  simp [Simulator.step, h]

/-- Witness for C4: `sim0` has noise scale 0, so its step is exact
propagation. -/
theorem step_formula_witness :
    (sim0.step xZero uZero).1 0 0 =
      (∑ j, xZero 0 j * sim0.A 0 j) + (∑ j, uZero 0 j * sim0.B 0 j) :=
  (step_formula sim0 xZero uZero).2 rfl 0 0

/-- C8: a step changes no component of the simulator other than the random
stream position, which advances by exactly one; the config, both dynamics
matrices and the stream itself are untouched. (Each instance owns its
stream, so distinct instances are independent by construction.) -/
theorem step_frame (sim : Simulator) (x : ℕ → Fin 4 → ℚ) (u : ℕ → Fin 2 → ℚ) :
    (sim.step x u).2.config = sim.config ∧
    (sim.step x u).2.A = sim.A ∧
    (sim.step x u).2.B = sim.B ∧
    (sim.step x u).2.rngStream = sim.rngStream ∧
    (sim.step x u).2.rngPos = sim.rngPos + 1 :=
  ⟨rfl, rfl, rfl, rfl, rfl⟩

/-- C5: for any solver satisfying the contract of spec §6, if the constraint
set of the program built by `optimize` is infeasible then `optimize` returns
`none` — the caller receives a failure signal, never a numeric result. -/
theorem optimize_infeasible_none (solve : SolverT) (A : Matrix (Fin 4) (Fin 4) ℚ)
    (B : Matrix (Fin 4) (Fin 2) ℚ) (T P : ℕ) (points : ℕ → Fin 2 → ℚ)
    (hsound : SolverSound solve)
    (hinf : ¬ ∃ x u, Feasible A B T P points x u) :
    optimize solve A B T P points = none := by
  cases h : optimize solve A B T P points with
  | none => rfl
  | some r => exact absurd ⟨r.1, r.2, (hsound _ _ r h).1⟩ hinf

/-- Witness for C5: with `T = 1` and two distinct waypoints both mapped to
index 0, the program is infeasible, and `optimize` returns `none`. -/
theorem optimize_infeasible_none_witness :
    optimize noneSolve (get_dynamics 1).1 (get_dynamics 1).2 1 2 pointsTwo = none :=
  optimize_infeasible_none noneSolve (get_dynamics 1).1 (get_dynamics 1).2 1 2 pointsTwo
    (fun C f r h => by simp [noneSolve] at h)
    (by
      rintro ⟨x, u, -, hpts, -⟩
      have h0 := hpts 0 (by decide) 0
      have h1 := hpts 1 (by decide) 0
      simp [pointIdx, pointIdxRaw, pointsTwo] at h0 h1
      rw [h0] at h1
      exact absurd h1 (by norm_num))

/-- C6: whenever every per-trajectory fit succeeds,
`generate_expert_trajectories` returns a states batch of
`n_trajectories` rows of length `T = len(arange(0, duration, time_step))`
each (entries 4-vectors) and an inputs batch of `n_trajectories` rows of
length `T` each (entries 2-vectors). -/
theorem generate_expert_trajectories_shapes (solve : SolverT) (cfg : Config)
    (wpNoise : ℕ → ℕ → Fin 2 → ℚ) (stNoise : ℕ → ℕ → Fin 4 → ℚ) :
    generate_expert_trajectories solve cfg wpNoise stNoise = none ∨
    ∃ xs us pts,
      generate_expert_trajectories solve cfg wpNoise stNoise = some (xs, us, pts) ∧
      xs.length = cfg.n_trajectories ∧ us.length = cfg.n_trajectories ∧
      (∀ r ∈ xs, r.length = arangeLen cfg.duration cfg.time_step) ∧
      (∀ r ∈ us, r.length = arangeLen cfg.duration cfg.time_step) := by
  unfold generate_expert_trajectories
  cases h : mapOption
      (fun i => optimize solve (get_dynamics cfg.time_step).1 (get_dynamics cfg.time_step).2
        (arangeLen cfg.duration cfg.time_step) 9
        (fun p j => template p j * cfg.trajectory_radius + cfg.trajectory_noise * wpNoise i p j))
      (List.range cfg.n_trajectories) with
  | none => exact Or.inl rfl
  | some sols =>
    refine Or.inr ⟨_, _, _, rfl, by simp, by simp, ?_, ?_⟩
    · intro r hr
      obtain ⟨i, hi, rfl⟩ := List.mem_map.mp hr
      simp
    · intro r hr
      obtain ⟨i, hi, rfl⟩ := List.mem_map.mp hr
      simp

end ESE200
